import Mathlib

/-!
Verification development for the CanterburyCommuto route-overlap package.

The Python sources are shallowly embedded: float values become rationals,
coordinate tuples become pairs of rationals, functions that can raise return
Option or Except, and the external geometry libraries (Shapely, pyproj) are
modelled by a kernel structure whose fields carry the operations the package
calls together with the laws those libraries guarantee.  A small axis-aligned
box instance of the kernel provides concrete evaluations.
-/

set_option maxHeartbeats 1000000

namespace CanterburyCommuto

/-- A geographic coordinate, written (latitude, longitude) as in the Python
sources, which use tuples of floats; floats are modelled as rationals. -/
abbrev Coord : Type := ℚ × ℚ

/-- Embedding of find_common_nodes (canterburycommuto/CanterburyCommuto.py,
lines 135-154).  The first component models
next((coord for coord in coordinates_a if coord in coordinates_b), None),
the second models the same scan over reversed(coordinates_a). -/
def find_common_nodes (coordinates_a coordinates_b : List Coord) :
    Option Coord × Option Coord :=
  (coordinates_a.find? (fun coord => decide (coord ∈ coordinates_b)),
   coordinates_a.reverse.find? (fun coord => decide (coord ∈ coordinates_b)))

/-- Embedding of the Python list method index: the index of the first
occurrence of a value, None modelling the ValueError when it is absent. -/
def py_index (x : Coord) : List Coord → Option ℕ
  | [] => none
  | c :: rest => if c = x then some 0 else (py_index x rest).map (· + 1)

/-- Embedding of split_segments (canterburycommuto/CanterburyCommuto.py,
lines 158-179).  Python slices coordinates[: i+1], coordinates[i : j+1] and
coordinates[j :] become take and drop; none models the ValueError raised by
coordinates.index when a node is absent. -/
def split_segments (coordinates : List Coord) (first_common last_common : Coord) :
    Option (List Coord × List Coord × List Coord) :=
  match py_index first_common coordinates, py_index last_common coordinates with
  | some index_first, some index_last =>
      some (coordinates.take (index_first + 1),
            (coordinates.drop index_first).take (index_last + 1 - index_first),
            coordinates.drop index_last)
  | _, _ => none

/-- Embedding of compute_percentages (canterburycommuto/CanterburyCommuto.py,
lines 183-194): (segment_value / total_value) * 100 if total_value > 0 else 0. -/
def compute_percentages (segment_value total_value : ℚ) : ℚ :=
  if 0 < total_value then segment_value / total_value * 100 else 0

/-! Characterizations of find? and py_index used by the claims about the
exact node matcher and the splitter. -/

theorem find?_eq_some_split {p : Coord → Bool} {l : List Coord} {c : Coord} :
    l.find? p = some c ↔
      p c = true ∧ ∃ l1 l2, l = l1 ++ c :: l2 ∧ ∀ x ∈ l1, p x = false := by
  induction l with
  | nil => simp
  | cons a as ih =>
    by_cases h : p a
    · simp only [List.find?_cons_of_pos _ h, Option.some_inj]
      constructor
      · rintro rfl
        exact ⟨h, [], as, rfl, by simp⟩
      · rintro ⟨hc, l1, l2, heq, hall⟩
        cases l1 with
        | nil => simpa using congrArg List.head? heq
        | cons b bs =>
          have hb : a = b := by simpa using congrArg List.head? heq
          have hpb : p b = false := hall b (by simp)
          rw [← hb] at hpb
          simp [h] at hpb
    · simp only [List.find?_cons_of_neg _ h, ih]
      constructor
      · rintro ⟨hc, l1, l2, heq, hall⟩
        exact ⟨hc, a :: l1, l2, by simp [heq], by
          intro x hx
          rcases List.mem_cons.1 hx with rfl | hx
          · simpa using h
          · exact hall x hx⟩
      · rintro ⟨hc, l1, l2, heq, hall⟩
        cases l1 with
        | nil =>
          have : a = c := by simpa using congrArg List.head? heq
          subst this
          simp [hc] at h
        | cons b bs =>
          refine ⟨hc, bs, l2, ?_, ?_⟩
          · have := congrArg List.tail heq
            simpa using this
          · intro x hx
            exact hall x (by simp [hx])

theorem find?_eq_none_iff {p : Coord → Bool} {l : List Coord} :
    l.find? p = none ↔ ∀ x ∈ l, p x = false := by
  rw [List.find?_eq_none]
  constructor
  · intro h x hx
    simpa using h x hx
  · intro h x hx
    simp [h x hx]

theorem py_index_eq_some {x : Coord} {l : List Coord} {i : ℕ} :
    py_index x l = some i ↔
      ∃ l1 l2, l = l1 ++ x :: l2 ∧ l1.length = i ∧ x ∉ l1 := by
  induction l generalizing i with
  | nil => simp [py_index]
  | cons a as ih =>
    by_cases h : a = x
    · subst h
      simp only [py_index, if_pos rfl]
      constructor
      · rintro h
        have : i = 0 := by simpa using h.symm
        subst this
        exact ⟨[], as, rfl, rfl, by simp⟩
      · rintro ⟨l1, l2, heq, hlen, hx⟩
        cases l1 with
        | nil => simpa using hlen.symm ▸ rfl
        | cons b bs =>
          have hb : a = b := by simpa using congrArg List.head? heq
          exact absurd (show a ∈ b :: bs by rw [hb]; exact List.mem_cons_self b bs) hx
    · simp only [py_index, if_neg h, Option.map_eq_some']
      constructor
      · rintro ⟨j, hj, rfl⟩
        rcases ih.1 hj with ⟨l1, l2, heq, hlen, hx⟩
        exact ⟨a :: l1, l2, by simp [heq], by simp [hlen], by
          simp only [List.mem_cons, not_or]
          exact ⟨fun hax => h hax.symm, hx⟩⟩
      · rintro ⟨l1, l2, heq, hlen, hx⟩
        cases l1 with
        | nil =>
          have : a = x := by simpa using congrArg List.head? heq
          exact absurd this h
        | cons b bs =>
          refine ⟨bs.length, ih.2 ⟨bs, l2, ?_, rfl, ?_⟩, ?_⟩
          · simpa using congrArg List.tail heq
          · intro hxbs
            exact hx (by simp [hxbs])
          · simpa using hlen

theorem py_index_eq_none {x : Coord} {l : List Coord} :
    py_index x l = none ↔ x ∉ l := by
  induction l with
  | nil => simp [py_index]
  | cons a as ih =>
    by_cases h : a = x
    · simp [py_index, h]
    · simp only [py_index, if_neg h, Option.map_eq_none', ih, List.mem_cons]
      constructor
      · intro hnot hor
        rcases hor with rfl | hmem
        · exact h rfl
        · exact hnot hmem
      · intro hnot hmem
        exact hnot (Or.inr hmem)

theorem find?_all_true {p : Coord → Bool} {l : List Coord}
    (h : ∀ x ∈ l, p x = true) : l.find? p = l.head? := by
  cases l with
  | nil => rfl
  | cons a as => simp [List.find?_cons_of_pos _ (h a (by simp))]

/-- Claim C3: find_common_nodes returns as first the earliest coordinate of
route A, in traversal order, that appears anywhere in route B under exact
equality, and as last the latest such coordinate (the first hit when route A
is scanned in reverse); each is none exactly when no shared coordinate
exists; on two identical routes it returns the first and last points of the
route. -/
theorem find_common_nodes_spec (a b : List Coord) :
    ((find_common_nodes a b).1 = none ↔ ∀ c ∈ a, c ∉ b) ∧
    ((find_common_nodes a b).2 = none ↔ ∀ c ∈ a, c ∉ b) ∧
    (∀ c, (find_common_nodes a b).1 = some c ↔
        c ∈ b ∧ ∃ l1 l2, a = l1 ++ c :: l2 ∧ ∀ x ∈ l1, x ∉ b) ∧
    (∀ c, (find_common_nodes a b).2 = some c ↔
        c ∈ b ∧ ∃ l1 l2, a = l1 ++ c :: l2 ∧ ∀ x ∈ l2, x ∉ b) ∧
    find_common_nodes a a = (a.head?, a.getLast?) := by
  refine ⟨?_, ?_, ?_, ?_, ?_⟩
  · rw [show (find_common_nodes a b).1 =
        a.find? (fun coord => decide (coord ∈ b)) from rfl, find?_eq_none_iff]
    simp
  · rw [show (find_common_nodes a b).2 =
        a.reverse.find? (fun coord => decide (coord ∈ b)) from rfl, find?_eq_none_iff]
    simp
  · intro c
    rw [show (find_common_nodes a b).1 =
        a.find? (fun coord => decide (coord ∈ b)) from rfl, find?_eq_some_split]
    simp
  · intro c
    rw [show (find_common_nodes a b).2 =
        a.reverse.find? (fun coord => decide (coord ∈ b)) from rfl, find?_eq_some_split]
    constructor
    · rintro ⟨hc, r1, r2, heq, hall⟩
      refine ⟨by simpa using hc, r2.reverse, r1.reverse, ?_, ?_⟩
      · have := congrArg List.reverse heq
        simpa using this
      · intro x hx
        simpa using hall x (by simpa using hx)
    · rintro ⟨hc, l1, l2, heq, hall⟩
      refine ⟨by simpa using hc, l2.reverse, l1.reverse, ?_, ?_⟩
      · rw [heq]
        simp
      · intro x hx
        simpa using hall x (by simpa using hx)
  · have h1 : a.find? (fun coord => decide (coord ∈ a)) = a.head? :=
      find?_all_true (fun x hx => by simpa using hx)
    have h2 : a.reverse.find? (fun coord => decide (coord ∈ a)) = a.getLast? := by
      rw [find?_all_true (fun x hx => by simpa using hx)]
      exact List.head?_reverse a
    rw [show find_common_nodes a a =
        (a.find? (fun coord => decide (coord ∈ a)),
         a.reverse.find? (fun coord => decide (coord ∈ a))) from rfl, h1, h2]

theorem getLast?_take_succ :
    ∀ (l : List Coord) (n : ℕ), n < l.length → (l.take (n + 1)).getLast? = l[n]? := by
  intro l
  induction l with
  | nil => intro n h; simp at h
  | cons a as ih =>
    intro n h
    cases n with
    | zero => simp
    | succ m =>
      have hm : m < as.length := by simpa using h
      cases as with
      | nil => simp at hm
      | cons b bs =>
        rw [List.take_succ_cons]
        rw [show ((b :: bs).take (m + 1)) = b :: bs.take m from List.take_succ_cons]
        rw [List.getLast?_cons_cons]
        rw [show (b :: bs.take m) = (b :: bs).take (m + 1) from (List.take_succ_cons).symm]
        rw [ih m hm]
        simp

theorem take_mid_drop_reconstruct (l : List Coord) (i j : ℕ) (hij : i ≤ j)
    (hj : j < l.length) :
    l.take (i + 1) ++ ((l.drop i).take (j + 1 - i)).tail ++ (l.drop j).tail = l := by
  have hi : i < l.length := lt_of_le_of_lt hij hj
  have hdropi : l.drop i = l[i] :: l.drop (i + 1) := List.drop_eq_getElem_cons hi
  have hs : j + 1 - i = (j - i) + 1 := by omega
  rw [hdropi, hs, List.take_succ_cons, List.tail_cons, List.tail_drop]
  have h2 : (l.drop (i + 1)).drop (j - i) = l.drop (j + 1) := by
    rw [List.drop_drop]
    congr 1
    omega
  rw [← h2, List.append_assoc, List.take_append_drop, List.take_append_drop]

theorem getElem?_of_py_index {x : Coord} {l : List Coord} {i : ℕ}
    (h : py_index x l = some i) : l[i]? = some x := by
  obtain ⟨l1, l2, rfl, rfl, -⟩ := py_index_eq_some.1 h
  rw [List.getElem?_append_right (le_refl _)]
  simp

theorem py_index_lt_length {x : Coord} {l : List Coord} {i : ℕ}
    (h : py_index x l = some i) : i < l.length := by
  obtain ⟨l1, l2, rfl, rfl, -⟩ := py_index_eq_some.1 h
  simp

theorem py_index_isSome_of_mem {x : Coord} {l : List Coord} (h : x ∈ l) :
    ∃ i, py_index x l = some i := by
  cases hpi : py_index x l with
  | none => exact absurd h (py_index_eq_none.1 hpi)
  | some i => exact ⟨i, rfl⟩

theorem first_common_node_index {a b : List Coord} {fc : Coord}
    (h : a.find? (fun coord => decide (coord ∈ b)) = some fc) :
    ∃ i0, py_index fc a = some i0 ∧
      ∀ j < i0, ∀ y, a[j]? = some y → y ∉ b := by
  obtain ⟨hfcb, l1, l2, rfl, hall⟩ := find?_eq_some_split.1 h
  have hfcb' : fc ∈ b := by simpa using hfcb
  refine ⟨l1.length, py_index_eq_some.2 ⟨l1, l2, rfl, rfl, ?_⟩, ?_⟩
  · intro hmem
    have := hall fc hmem
    simp [hfcb'] at this
  · intro j hj y hy hyb
    rw [List.getElem?_append, if_pos hj] at hy
    have := hall y (List.getElem?_mem hy)
    simp [hyb] at this

/-- Claim C2, amended: for a pair (first, last) of common nodes returned by
find_common_nodes, split_segments slices the route at the index of the first
occurrence of each node, firstIndex is at most lastIndex, before ends and
overlap starts with the first node, overlap ends and after starts with the
last node, and dropping the duplicated head of overlap and of after
reconstructs the route exactly; the as-written coverage statement (each of
the two boundary points in exactly two adjacent parts) holds only when
firstIndex and lastIndex differ, see the counterexample. -/
theorem split_segments_spec (a b : List Coord) (fc lc : Coord)
    (h : find_common_nodes a b = (some fc, some lc)) :
    ∃ i0 i1, py_index fc a = some i0 ∧ py_index lc a = some i1 ∧
      i0 ≤ i1 ∧ i1 < a.length ∧
      split_segments a fc lc =
        some (a.take (i0 + 1), (a.drop i0).take (i1 + 1 - i0), a.drop i1) ∧
      ∀ bef ov aft, split_segments a fc lc = some (bef, ov, aft) →
        bef ++ ov.tail ++ aft.tail = a ∧
        bef.getLast? = some fc ∧ ov.head? = some fc ∧
        ov.getLast? = some lc ∧ aft.head? = some lc := by
  have h1 : a.find? (fun coord => decide (coord ∈ b)) = some fc :=
    congrArg Prod.fst h
  have h2 : a.reverse.find? (fun coord => decide (coord ∈ b)) = some lc :=
    congrArg Prod.snd h
  obtain ⟨i0, hpi0, hmin⟩ := first_common_node_index h1
  obtain ⟨hlcb, r1, r2, hrev, -⟩ := find?_eq_some_split.1 h2
  have hlcb' : lc ∈ b := by simpa using hlcb
  have hlca : lc ∈ a := by
    have : lc ∈ a.reverse := by rw [hrev]; simp
    simpa using this
  obtain ⟨i1, hpi1⟩ := py_index_isSome_of_mem hlca
  have hi1len : i1 < a.length := py_index_lt_length hpi1
  have hi0len : i0 < a.length := py_index_lt_length hpi0
  have hget1 : a[i1]? = some lc := getElem?_of_py_index hpi1
  have hget0 : a[i0]? = some fc := getElem?_of_py_index hpi0
  have hle : i0 ≤ i1 := by
    by_contra hlt
    exact hmin i1 (by omega) lc hget1 hlcb'
  have hsplit : split_segments a fc lc =
      some (a.take (i0 + 1), (a.drop i0).take (i1 + 1 - i0), a.drop i1) := by
    rw [split_segments, hpi0, hpi1]
  refine ⟨i0, i1, hpi0, hpi1, hle, hi1len, hsplit, ?_⟩
  intro bef ov aft hba
  rw [hsplit] at hba
  obtain ⟨rfl, rfl, rfl⟩ : bef = a.take (i0 + 1) ∧
      ov = (a.drop i0).take (i1 + 1 - i0) ∧ aft = a.drop i1 := by
    have := (Option.some_inj.1 hba).symm
    exact ⟨congrArg (fun t => t.1) this, congrArg (fun t => t.2.1) this,
      congrArg (fun t => t.2.2) this⟩
  have hdropi : a.drop i0 = a[i0] :: a.drop (i0 + 1) := List.drop_eq_getElem_cons hi0len
  have hvi0 : a[i0] = fc := by
    have := List.getElem?_eq_getElem hi0len
    rw [this] at hget0
    exact Option.some_inj.1 hget0
  refine ⟨take_mid_drop_reconstruct a i0 i1 hle hi1len, ?_, ?_, ?_, ?_⟩
  · rw [getLast?_take_succ a i0 hi0len, hget0]
  · rw [hdropi, show i1 + 1 - i0 = (i1 - i0) + 1 by omega, List.take_succ_cons]
    simp [hvi0]
  · have hlt : i1 - i0 < (a.drop i0).length := by
      rw [List.length_drop]
      omega
    rw [show i1 + 1 - i0 = (i1 - i0) + 1 by omega,
      getLast?_take_succ (a.drop i0) (i1 - i0) hlt, List.getElem?_drop,
      show i0 + (i1 - i0) = i1 by omega, hget1]
  · rw [List.drop_eq_getElem_cons hi1len]
    have hvi1 : a[i1] = lc := by
      have := List.getElem?_eq_getElem hi1len
      rw [this] at hget1
      exact Option.some_inj.1 hget1
    simp [hvi1]

/-- Claim C2, witness: a concrete route pair on which the amended theorem
evaluates; the split of the route (0,0),(1,1),(2,2) at the common nodes with
(1,1),(2,2) is computed through the theorem. -/
theorem split_segments_spec_witness :
    split_segments [((0 : ℚ), (0 : ℚ)), (1, 1), (2, 2)] (1, 1) (2, 2) =
      some ([(0, 0), (1, 1)], [(1, 1), (2, 2)], [(2, 2)]) := by
  obtain ⟨i0, i1, hpi0, hpi1, -, -, hsplit, -⟩ :=
    split_segments_spec [((0 : ℚ), (0 : ℚ)), (1, 1), (2, 2)] [(1, 1), (2, 2)]
      (1, 1) (2, 2) (by decide)
  have e0 : py_index ((1 : ℚ), (1 : ℚ)) [((0 : ℚ), (0 : ℚ)), (1, 1), (2, 2)] = some 1 := by
    decide
  have e1 : py_index ((2 : ℚ), (2 : ℚ)) [((0 : ℚ), (0 : ℚ)), (1, 1), (2, 2)] = some 2 := by
    decide
  rw [hpi0] at e0
  rw [hpi1] at e1
  obtain rfl : i0 = 1 := Option.some_inj.1 e0
  obtain rfl : i1 = 2 := Option.some_inj.1 e1
  rw [hsplit]
  decide

/-- Claim C2, counterexample: on route A = (0,0),(1,1) and route B = (0,0),
find_common_nodes returns the pair ((0,0), (0,0)) with firstIndex = lastIndex
= 0, and the single boundary point (0,0) then appears in all three parts of
the split (in particular in the non-adjacent before and after parts), so the
concatenated parts hold three copies of it, not the two copies in adjacent
parts that the claim asserts. -/
theorem split_segments_cex :
    find_common_nodes [((0 : ℚ), (0 : ℚ)), (1, 1)] [((0 : ℚ), (0 : ℚ))] =
      (some (0, 0), some (0, 0)) ∧
    split_segments [((0 : ℚ), (0 : ℚ)), (1, 1)] (0, 0) (0, 0) =
      some ([(0, 0)], [(0, 0)], [(0, 0), (1, 1)]) ∧
    (((0 : ℚ), (0 : ℚ)) ∈ [((0 : ℚ), (0 : ℚ))] ∧
     ((0 : ℚ), (0 : ℚ)) ∈ [((0 : ℚ), (0 : ℚ))] ∧
     ((0 : ℚ), (0 : ℚ)) ∈ [((0 : ℚ), (0 : ℚ)), (1, 1)]) ∧
    List.count ((0 : ℚ), (0 : ℚ))
      ([((0 : ℚ), (0 : ℚ))] ++ [((0 : ℚ), (0 : ℚ))] ++ [((0 : ℚ), (0 : ℚ)), (1, 1)]) = 3 := by
  refine ⟨by decide, by decide, ⟨by decide, by decide, by decide⟩, by decide⟩

/-! Oriented rectangle construction. -/

/-- Embedding of calculate_rectangle_coordinates (canterburycommuto/
CanterburyCommuto.py, lines 768-805).  The float square root
(dx**2 + dy**2) ** 0.5 is modelled by Rat.sqrt, which like the float version
is zero exactly on a zero argument; the unguarded divisions dx / magnitude
and dy / magnitude raise ZeroDivisionError in Python when the magnitude is
zero, modelled by returning none. -/
def calculate_rectangle_coordinates (start stop : Coord) (width : ℚ) :
    Option (List Coord) :=
  let dx := stop.2 - start.2
  let dy := stop.1 - start.1
  let magnitude := Rat.sqrt (dx ^ 2 + dy ^ 2)
  if magnitude = 0 then none
  else
    let unit_dx := dx / magnitude
    let unit_dy := dy / magnitude
    let perp_dx := -unit_dy
    let perp_dy := unit_dx
    let half_width := width / 2 / 111111
    let offset_x := perp_dx * half_width
    let offset_y := perp_dy * half_width
    let bottom_left := (start.1 - offset_y, start.2 - offset_x)
    let top_left := (start.1 + offset_y, start.2 + offset_x)
    let bottom_right := (stop.1 - offset_y, stop.2 - offset_x)
    let top_right := (stop.1 + offset_y, stop.2 + offset_x)
    some [bottom_left, top_left, top_right, bottom_right, bottom_left]

theorem rat_sqrt_pos_of_pos {q : ℚ} (h : 0 < q) : 0 < Rat.sqrt q := by
  have hnum : 0 < q.num := Rat.num_pos.2 h
  have hden : 0 < q.den := q.pos
  rw [Rat.sqrt, Rat.mkRat_eq_div]
  apply div_pos
  · have : 0 < Nat.sqrt q.num.toNat := Nat.sqrt_pos.2 (by omega)
    have : (0 : ℤ) < Int.sqrt q.num := by
      rw [Int.sqrt]
      exact_mod_cast this
    exact_mod_cast this
  · have : 0 < Nat.sqrt q.den := Nat.sqrt_pos.2 hden
    exact_mod_cast this

/-- Claim C10: calculate_rectangle_coordinates divides by the magnitude of
the direction vector with no guard, so a zero-length segment (start = stop)
hits a division by zero, modelled as none, while any segment with distinct
endpoints produces a closed five-point polygon. -/
theorem calculate_rectangle_coordinates_zero_guard (start stop : Coord) (width : ℚ) :
    (start = stop → calculate_rectangle_coordinates start stop width = none) ∧
    (start ≠ stop →
      ∃ corners, calculate_rectangle_coordinates start stop width = some corners ∧
        corners.length = 5 ∧ corners.head? = corners.getLast?) := by
  constructor
  · rintro rfl
    have hz : Rat.sqrt ((start.2 - start.2) ^ 2 + (start.1 - start.1) ^ 2) = 0 := by
      rw [show (start.2 - start.2) ^ 2 + (start.1 - start.1) ^ 2 = ((0 : ℕ) : ℚ) by
        push_cast; ring, Rat.sqrt_natCast]
      simp
    rw [calculate_rectangle_coordinates]
    simp [hz]
  · intro hne
    have hpos : 0 < (stop.2 - start.2) ^ 2 + (stop.1 - start.1) ^ 2 := by
      by_contra hc
      push_neg at hc
      have h1 : (stop.2 - start.2) ^ 2 = 0 ∧ (stop.1 - start.1) ^ 2 = 0 := by
        constructor <;> nlinarith [sq_nonneg (stop.2 - start.2), sq_nonneg (stop.1 - start.1)]
      have e2 : stop.2 = start.2 := by nlinarith [h1.1]
      have e1 : stop.1 = start.1 := by nlinarith [h1.2]
      exact hne (Prod.ext e1.symm e2.symm)
    have hmag : Rat.sqrt ((stop.2 - start.2) ^ 2 + (stop.1 - start.1) ^ 2) ≠ 0 :=
      ne_of_gt (rat_sqrt_pos_of_pos hpos)
    rw [calculate_rectangle_coordinates]
    simp only [if_neg hmag]
    exact ⟨_, rfl, rfl, rfl⟩

/-- Claim C10, witness: the degenerate segment from (0,0) to itself fails
with the modelled division by zero, while the segment from (0,0) to (0,1)
yields a closed five-point polygon. -/
theorem calculate_rectangle_coordinates_zero_guard_witness :
    calculate_rectangle_coordinates ((0 : ℚ), (0 : ℚ)) ((0 : ℚ), (0 : ℚ)) 100 = none ∧
    ∃ corners,
      calculate_rectangle_coordinates ((0 : ℚ), (0 : ℚ)) ((0 : ℚ), (1 : ℚ)) 100 =
        some corners ∧ corners.length = 5 ∧ corners.head? = corners.getLast? :=
  ⟨(calculate_rectangle_coordinates_zero_guard ((0 : ℚ), (0 : ℚ)) ((0 : ℚ), (0 : ℚ)) 100).1 rfl,
   (calculate_rectangle_coordinates_zero_guard ((0 : ℚ), (0 : ℚ)) ((0 : ℚ), (1 : ℚ)) 100).2
     (by decide)⟩

/-! Model of the external geometry libraries.  The package calls Shapely for
polygon intersection, planar area and emptiness tests, point-in-polygon
tests and polyline/polygon-boundary crossings, and pyproj's Geod for
ellipsoidal areas; a kernel bundles those operations together with the laws
Shapely guarantees for them (areas are nonnegative, an empty geometry has
zero area, an intersection is contained in both operands so its area is at
most either area). -/
structure GeomKernel where
  Poly : Type
  inter : Poly → Poly → Poly
  area : Poly → ℚ
  isEmpty : Poly → Bool
  geodeticArea : Poly → ℚ
  buffer : List Coord → ℚ → Poly
  within : Coord → Poly → Bool
  crossings : List Coord → Poly → List Coord
  area_nonneg : ∀ p, 0 ≤ area p
  area_of_isEmpty : ∀ p, isEmpty p = true → area p = 0
  inter_area_le_left : ∀ p q, area (inter p q) ≤ area p
  inter_area_le_right : ∀ p q, area (inter p q) ≤ area q

/-- Embedding of calculate_overlap_ratio (canterburycommuto/
CanterburyCommuto.py, lines 881-898): zero on an empty intersection,
otherwise (overlap_area / smaller_area) * 100 if smaller_area > 0 else 0. -/
def calculate_overlap_ratio (K : GeomKernel) (polygon_a polygon_b : K.Poly) : ℚ :=
  let intersection := K.inter polygon_a polygon_b
  if K.isEmpty intersection then 0
  else
    let overlap_area := K.area intersection
    let smaller_area := min (K.area polygon_a) (K.area polygon_b)
    if 0 < smaller_area then overlap_area / smaller_area * 100 else 0

theorem overlap_area_le_smaller (K : GeomKernel) (a b : K.Poly) :
    K.area (K.inter a b) ≤ min (K.area a) (K.area b) :=
  le_min (K.inter_area_le_left a b) (K.inter_area_le_right a b)

theorem calculate_overlap_ratio_nonneg (K : GeomKernel) (a b : K.Poly) :
    0 ≤ calculate_overlap_ratio K a b := by
  rw [calculate_overlap_ratio]
  dsimp only
  split
  · exact le_refl 0
  · split
    · have h1 := K.area_nonneg (K.inter a b)
      have h2 : (0 : ℚ) < min (K.area a) (K.area b) := by assumption
      positivity
    · exact le_refl 0

theorem calculate_overlap_ratio_le_100 (K : GeomKernel) (a b : K.Poly) :
    calculate_overlap_ratio K a b ≤ 100 := by
  rw [calculate_overlap_ratio]
  dsimp only
  split
  · norm_num
  · split
    · rename_i hmin
      have hle := overlap_area_le_smaller K a b
      have hq : K.area (K.inter a b) / min (K.area a) (K.area b) ≤ 1 :=
        (div_le_one hmin).2 hle
      nlinarith
    · norm_num

theorem calculate_overlap_ratio_eq_zero_iff (K : GeomKernel) (a b : K.Poly) :
    calculate_overlap_ratio K a b = 0 ↔ K.area (K.inter a b) = 0 := by
  rw [calculate_overlap_ratio]
  dsimp only
  split
  · rename_i hempty
    simp [K.area_of_isEmpty _ hempty]
  · split
    · rename_i hmin
      constructor
      · intro h
        rcases mul_eq_zero.1 h with h1 | h1
        · rcases div_eq_zero_iff.1 h1 with h2 | h2
          · exact h2
          · exact absurd h2 (ne_of_gt hmin)
        · norm_num at h1
      · intro h
        rw [h]
        simp
    · rename_i hmin
      push_neg at hmin
      have hz : min (K.area a) (K.area b) = 0 :=
        le_antisymm hmin (le_min (K.area_nonneg a) (K.area_nonneg b))
      have := overlap_area_le_smaller K a b
      have := K.area_nonneg (K.inter a b)
      constructor
      · intro _
        linarith [hz ▸ overlap_area_le_smaller K a b]
      · intro _
        rfl

/-- Claim C4, amended: the rectangle overlap ratio equals intersection area
over the smaller rectangle area times 100 whenever the intersection is
nonempty and the smaller area is positive, it always lies in the interval
from 0 to 100, and it is 0 exactly when the intersection has zero area; a
pair of touching rectangles intersects in a degenerate zero-area geometry
and still gets ratio 0, so being 0 is not equivalent to not intersecting. -/
theorem calculate_overlap_ratio_spec (K : GeomKernel) (a b : K.Poly) :
    (K.isEmpty (K.inter a b) = false → 0 < min (K.area a) (K.area b) →
      calculate_overlap_ratio K a b =
        K.area (K.inter a b) / min (K.area a) (K.area b) * 100) ∧
    0 ≤ calculate_overlap_ratio K a b ∧
    calculate_overlap_ratio K a b ≤ 100 ∧
    (calculate_overlap_ratio K a b = 0 ↔ K.area (K.inter a b) = 0) := by
  refine ⟨?_, calculate_overlap_ratio_nonneg K a b,
    calculate_overlap_ratio_le_100 K a b, calculate_overlap_ratio_eq_zero_iff K a b⟩
  intro hne hmin
  rw [calculate_overlap_ratio]
  dsimp only
  simp only [hne, Bool.false_eq_true, if_false, if_pos hmin]

/-! A concrete kernel instance: axis-aligned boxes with exact rational
arithmetic.  Boxes are the Shapely geometries produced for axis-aligned
rectangles and bounding-box buffers; the fields model Shapely's exact
behavior on this subfamily (a touching pair intersects in a degenerate
zero-area box that is not empty). -/
structure Box where
  x1 : ℚ
  x2 : ℚ
  y1 : ℚ
  y2 : ℚ
deriving DecidableEq

def Box.isEmptyB (b : Box) : Bool := decide (b.x2 < b.x1 ∨ b.y2 < b.y1)

def Box.areaB (b : Box) : ℚ := if b.isEmptyB then 0 else (b.x2 - b.x1) * (b.y2 - b.y1)

def Box.interB (p q : Box) : Box :=
  ⟨max p.x1 q.x1, min p.x2 q.x2, max p.y1 q.y1, min p.y2 q.y2⟩

/-- Point-in-polygon for boxes; a Shapely point is within a polygon when it
lies in the interior, so the comparisons are strict.  The x axis carries the
longitude (second coordinate) and the y axis the latitude, as in the
sources, which build Point(lon, lat). -/
def Box.withinB (pt : Coord) (b : Box) : Bool :=
  decide (b.x1 < pt.2 ∧ pt.2 < b.x2 ∧ b.y1 < pt.1 ∧ pt.1 < b.y2)

/-- Modelled from the spec: get_route_polygon_intersections lives in
canterburycommuto/Computations.py, which is not among the source files; per
the spec it returns the crossing points between a route's polyline and the
polygon's boundary in travel order.  For the box model the crossings are the
route vertices lying exactly on the box boundary. -/
def Box.crossingsB (coords : List Coord) (b : Box) : List Coord :=
  coords.filter (fun pt =>
    decide (((pt.2 = b.x1 ∨ pt.2 = b.x2) ∧ b.y1 ≤ pt.1 ∧ pt.1 ≤ b.y2) ∨
      ((pt.1 = b.y1 ∨ pt.1 = b.y2) ∧ b.x1 ≤ pt.2 ∧ pt.2 ≤ b.x2)))

/-- Bounding-box buffer for the box model: the smallest axis-aligned box
around the route, expanded by the buffer distance converted from meters to
degrees with the package's 111,111 meters-per-degree convention. -/
def Box.ofRoute (coords : List Coord) (d : ℚ) : Box :=
  match coords with
  | [] => ⟨0, -1, 0, -1⟩
  | c :: rest =>
      let deg := d / 111111
      ⟨(rest.foldl (fun m p => min m p.2) c.2) - deg,
       (rest.foldl (fun m p => max m p.2) c.2) + deg,
       (rest.foldl (fun m p => min m p.1) c.1) - deg,
       (rest.foldl (fun m p => max m p.1) c.1) + deg⟩

/-- Ellipsoidal (WGS84) area model for boxes: the planar degree area scaled
to square meters and weighted by a rational stand-in for the cosine of the
mid latitude, so that the geodetic area is not proportional to the planar
one across latitudes, as on the real ellipsoid. -/
def Box.geodeticAreaB (b : Box) : ℚ :=
  if b.isEmptyB then 0
  else 111111 ^ 2 * (b.x2 - b.x1) * (b.y2 - b.y1) * (1 - ((b.y1 + b.y2) / 2) ^ 2 / 6566)

theorem Box.areaB_nonneg (b : Box) : 0 ≤ b.areaB := by
  rw [Box.areaB, Box.isEmptyB]
  split
  · exact le_refl 0
  · rename_i h
    simp only [decide_eq_true_eq] at h
    push_neg at h
    nlinarith [h.1, h.2]

theorem Box.not_isEmptyB_iff (b : Box) :
    b.isEmptyB = false ↔ b.x1 ≤ b.x2 ∧ b.y1 ≤ b.y2 := by
  rw [Box.isEmptyB]
  rw [decide_eq_false_iff_not]
  push_neg
  constructor
  · rintro ⟨h1, h2⟩
    exact ⟨le_of_not_lt (fun hc => absurd h1 (not_le.2 hc)), le_of_not_lt (fun hc => absurd h2 (not_le.2 hc))⟩
  · rintro ⟨h1, h2⟩
    exact ⟨h1, h2⟩

theorem Box.interB_area_le_left (p q : Box) : (p.interB q).areaB ≤ p.areaB := by
  cases he : (p.interB q).isEmptyB with
  | true =>
    have : (p.interB q).areaB = 0 := by rw [Box.areaB, he]; simp
    rw [this]
    exact Box.areaB_nonneg p
  | false =>
    have hiv := (Box.not_isEmptyB_iff _).1 he
    rw [Box.interB] at hiv
    simp only at hiv
    obtain ⟨hx, hy⟩ := hiv
    have hpx : p.x1 ≤ p.x2 := le_trans (le_trans (le_max_left _ _) hx) (min_le_left _ _)
    have hpy : p.y1 ≤ p.y2 := le_trans (le_trans (le_max_left _ _) hy) (min_le_left _ _)
    have hpe : p.isEmptyB = false := (Box.not_isEmptyB_iff p).2 ⟨hpx, hpy⟩
    rw [Box.areaB, Box.areaB, he, hpe]
    simp only [Bool.false_eq_true, if_false]
    rw [Box.interB]
    simp only
    have hw : min p.x2 q.x2 - max p.x1 q.x1 ≤ p.x2 - p.x1 := by
      have := min_le_left p.x2 q.x2
      have := le_max_left p.x1 q.x1
      linarith
    have hh : min p.y2 q.y2 - max p.y1 q.y1 ≤ p.y2 - p.y1 := by
      have := min_le_left p.y2 q.y2
      have := le_max_left p.y1 q.y1
      linarith
    have hw0 : 0 ≤ min p.x2 q.x2 - max p.x1 q.x1 := by linarith
    have hh0 : 0 ≤ min p.y2 q.y2 - max p.y1 q.y1 := by linarith
    nlinarith

theorem Box.interB_comm_area (p q : Box) : (p.interB q).areaB = (q.interB p).areaB := by
  rw [Box.interB, Box.interB, Box.areaB, Box.areaB]
  rw [max_comm, min_comm, max_comm q.y1 p.y1, min_comm q.y2 p.y2]

theorem Box.interB_area_le_right (p q : Box) : (p.interB q).areaB ≤ q.areaB := by
  rw [Box.interB_comm_area]
  exact Box.interB_area_le_left q p

/-- The box instance of the geometry kernel. -/
def boxGeom : GeomKernel where
  Poly := Box
  inter := Box.interB
  area := Box.areaB
  isEmpty := Box.isEmptyB
  geodeticArea := Box.geodeticAreaB
  buffer := Box.ofRoute
  within := Box.withinB
  crossings := Box.crossingsB
  area_nonneg := Box.areaB_nonneg
  area_of_isEmpty := by
    intro p h
    rw [Box.areaB, h]
    simp
  inter_area_le_left := Box.interB_area_le_left
  inter_area_le_right := Box.interB_area_le_right

/-- Claim C4, counterexample: the unit squares over x in 0..1 and x in 1..2
touch along an edge, so their Shapely intersection is a degenerate zero-area
geometry which is not empty — the rectangles do intersect — yet the overlap
ratio is 0, refuting that a ratio of 0 is equivalent to the rectangles not
intersecting. -/
theorem calculate_overlap_ratio_cex :
    calculate_overlap_ratio boxGeom (Box.mk 0 1 0 1) (Box.mk 1 2 0 1) = 0 ∧
    boxGeom.isEmpty (boxGeom.inter (Box.mk 0 1 0 1) (Box.mk 1 2 0 1)) = false := by
  have hinter : boxGeom.inter (Box.mk 0 1 0 1) (Box.mk 1 2 0 1) = Box.mk 1 1 0 1 := by
    show Box.interB _ _ = _
    rw [Box.interB]
    norm_num
  have he : boxGeom.isEmpty (boxGeom.inter (Box.mk 0 1 0 1) (Box.mk 1 2 0 1)) = false := by
    rw [hinter]
    show Box.isEmptyB (Box.mk 1 1 0 1) = false
    rw [Box.isEmptyB]
    norm_num
  have harea : boxGeom.area (boxGeom.inter (Box.mk 0 1 0 1) (Box.mk 1 2 0 1)) = 0 := by
    rw [hinter]
    show Box.areaB (Box.mk 1 1 0 1) = 0
    rw [Box.areaB, Box.isEmptyB]
    norm_num
  refine ⟨?_, he⟩
  rw [calculate_overlap_ratio]
  dsimp only
  rw [harea]
  simp only [he, Bool.false_eq_true, if_false]
  split
  · simp
  · rfl

/-! Buffer corridor engine. -/

/-- Embedding of create_buffered_route (canterburycommuto/CanterburyCommuto.py,
lines 1550-1589): none models the ValueError raised when the route has fewer
than two points; the project-buffer-reproject work is the kernel's buffer
operation. -/
def create_buffered_route (K : GeomKernel) (route_coords : List Coord)
    (buffer_distance_meters : ℚ) : Option K.Poly :=
  if route_coords.length < 2 then none
  else some (K.buffer route_coords buffer_distance_meters)

/-- Embedding of calculate_area_ratios (canterburycommuto/CanterburyCommuto.py,
lines 1703-1731): geodetic areas of the intersection and both buffers, with
each ratio scaled by 100 and defaulting to 0 on a zero area.  This function
is defined in the source but never called by the buffer pipeline. -/
def calculate_area_ratios (K : GeomKernel) (buffer_a buffer_b intersection : K.Poly) :
    ℚ × ℚ × ℚ :=
  let intersection_area := K.geodeticArea intersection
  let area_a := K.geodeticArea buffer_a
  let area_b := K.geodeticArea buffer_b
  (intersection_area,
   if 0 < area_a then intersection_area / area_a * 100 else 0,
   if 0 < area_b then intersection_area / area_b * 100 else 0)

/-- The reported buffer intersection ratios of the pipeline
(canterburycommuto/CanterburyCommuto.py, lines 1916-1922, and the identical
computation in process_row_route_buffers, lines 1796-1800 of the example
sources): Shapely planar areas, intersection over each buffer. -/
def buffer_intersection_ratios (K : GeomKernel) (buffer_a buffer_b : K.Poly) : ℚ × ℚ :=
  let intersection := K.inter buffer_a buffer_b
  if K.isEmpty intersection then (0, 0)
  else (K.area intersection / K.area buffer_a, K.area intersection / K.area buffer_b)

/-- Modelled from the spec: the reported value the spec asserts, the
ellipsoidal (WGS84) geodetic area of the buffer intersection polygon divided
by the geodetic area of each buffer. -/
def spec_geodetic_ratios (K : GeomKernel) (buffer_a buffer_b : K.Poly) : ℚ × ℚ :=
  (K.geodeticArea (K.inter buffer_a buffer_b) / K.geodeticArea buffer_a,
   K.geodeticArea (K.inter buffer_a buffer_b) / K.geodeticArea buffer_b)

/-- Per-row record of the buffer-ratio pipeline, the numeric fields of
IntersectionRatioResult. -/
structure BufferRowResult where
  aDist : ℚ
  aTime : ℚ
  bDist : ℚ
  bTime : ℚ
  aIntersecRatio : ℚ
  bIntersecRatio : ℚ
deriving DecidableEq

/-- Route data returned by the oracle for an origin/destination pair of
strings: decoded polyline, distance in kilometers, duration in minutes. -/
structure RouteInfo where
  points : List Coord
  dist : ℚ
  time : ℚ

/-- Embedding of the loop body of process_routes_with_buffers
(canterburycommuto/CanterburyCommuto.py, lines 1771-1940): the three
degenerate origin-equals-destination cases, the identical-pair shortcut that
reports ratio 1.0 for both without intersecting, the empty-intersection case
reporting 0.0, and otherwise the planar ratios intersection.area /
buffer.area; none models the ValueError of create_buffered_route on a route
with fewer than two points.  Plotting and CSV output are omitted as I/O. -/
def process_buffer_row (K : GeomKernel) (oracle : String → String → RouteInfo)
    (buffer_distance : ℚ)
    (origin_a destination_a origin_b destination_b : String) :
    Option BufferRowResult :=
  if origin_a = destination_a ∧ origin_b = destination_b then
    some ⟨0, 0, 0, 0, 0, 0⟩
  else if origin_a = destination_a ∧ origin_b ≠ destination_b then
    let rb := oracle origin_b destination_b
    some ⟨0, 0, rb.dist, rb.time, 0, 0⟩
  else if origin_a ≠ destination_a ∧ origin_b = destination_b then
    let ra := oracle origin_a destination_a
    some ⟨ra.dist, ra.time, 0, 0, 0, 0⟩
  else
    let ra := oracle origin_a destination_a
    let rb := oracle origin_b destination_b
    if origin_a = origin_b ∧ destination_a = destination_b then
      match create_buffered_route K ra.points buffer_distance with
      | none => none
      | some _ => some ⟨ra.dist, ra.time, ra.dist, ra.time, 1, 1⟩
    else
      match create_buffered_route K ra.points buffer_distance,
            create_buffered_route K rb.points buffer_distance with
      | some buffer_a, some buffer_b =>
          let intersection := K.inter buffer_a buffer_b
          if K.isEmpty intersection then
            some ⟨ra.dist, ra.time, rb.dist, rb.time, 0, 0⟩
          else
            some ⟨ra.dist, ra.time, rb.dist, rb.time,
                  K.area intersection / K.area buffer_a,
                  K.area intersection / K.area buffer_b⟩
      | _, _ => none

/-- Claim C1, amended: for every non-degenerate, non-identical route pair the
pipeline reports aIntersecRatio and bIntersecRatio computed from Shapely
planar areas — intersection.area / buffer.area — not from the geodetic
areas; the geodetic helpers calculate_geodetic_area and calculate_area_ratios
exist in the source but are never invoked by this pipeline. -/
theorem process_buffer_row_planar (K : GeomKernel) (oracle : String → String → RouteInfo)
    (bd : ℚ) (oa da ob db : String)
    (h1 : oa ≠ da) (h2 : ob ≠ db) (h3 : ¬(oa = ob ∧ da = db))
    (ha : 2 ≤ (oracle oa da).points.length) (hb : 2 ≤ (oracle ob db).points.length) :
    process_buffer_row K oracle bd oa da ob db =
      some ⟨(oracle oa da).dist, (oracle oa da).time,
            (oracle ob db).dist, (oracle ob db).time,
            (buffer_intersection_ratios K (K.buffer (oracle oa da).points bd)
              (K.buffer (oracle ob db).points bd)).1,
            (buffer_intersection_ratios K (K.buffer (oracle oa da).points bd)
              (K.buffer (oracle ob db).points bd)).2⟩ := by
  rw [process_buffer_row]
  rw [if_neg (fun hc => h1 hc.1), if_neg (fun hc => h1 hc.1),
    if_neg (fun hc => h2 hc.2), if_neg h3]
  dsimp only
  rw [create_buffered_route, create_buffered_route,
    if_neg (by omega : ¬(oracle oa da).points.length < 2),
    if_neg (by omega : ¬(oracle ob db).points.length < 2)]
  rw [buffer_intersection_ratios]
  dsimp only
  split
  · rfl
  · rfl

/-- Projections of the box kernel, stated once for rewriting. -/
theorem boxGeom_inter (p q : Box) : boxGeom.inter p q = Box.interB p q := rfl

theorem boxGeom_area (p : Box) : boxGeom.area p = Box.areaB p := rfl

theorem boxGeom_isEmpty (p : Box) : boxGeom.isEmpty p = Box.isEmptyB p := rfl

theorem boxGeom_buffer (c : List Coord) (d : ℚ) : boxGeom.buffer c d = Box.ofRoute c d := rfl

theorem boxGeom_geodeticArea (p : Box) : boxGeom.geodeticArea p = Box.geodeticAreaB p := rfl

/-- Oracle for the witness: two short diagonal routes far apart. -/
def wOracle (o _d : String) : RouteInfo :=
  if o = "0,0" then ⟨[(0, 0), (1, 1)], 3, 4⟩ else ⟨[(5, 5), (6, 6)], 7, 8⟩

/-- Claim C1, witness for the amended theorem: on two disjoint concrete
routes the pipeline reports the oracle metrics with both planar ratios 0. -/
theorem process_buffer_row_planar_witness :
    process_buffer_row boxGeom wOracle 0 "0,0" "1,1" "5,5" "6,6" =
      some ⟨3, 4, 7, 8, 0, 0⟩ := by
  have ho1 : wOracle "0,0" "1,1" = ⟨[(0, 0), (1, 1)], 3, 4⟩ := by
    rw [wOracle, if_pos rfl]
  have ho2 : wOracle "5,5" "6,6" = ⟨[(5, 5), (6, 6)], 7, 8⟩ := by
    rw [wOracle, if_neg (by decide)]
  rw [process_buffer_row_planar boxGeom wOracle 0 "0,0" "1,1" "5,5" "6,6"
    (by decide) (by decide) (by decide) (by rw [ho1]; simp) (by rw [ho2]; simp)]
  rw [ho1, ho2]
  have hbA : boxGeom.buffer [((0 : ℚ), (0 : ℚ)), (1, 1)] 0 = Box.mk 0 1 0 1 := by
    rw [boxGeom_buffer, Box.ofRoute]
    norm_num [min_def, max_def]
  have hbB : boxGeom.buffer [((5 : ℚ), (5 : ℚ)), (6, 6)] 0 = Box.mk 5 6 5 6 := by
    rw [boxGeom_buffer, Box.ofRoute]
    norm_num [min_def, max_def]
  rw [hbA, hbB, buffer_intersection_ratios]
  dsimp only
  have hi : boxGeom.inter (Box.mk 0 1 0 1) (Box.mk 5 6 5 6) = Box.mk 5 1 5 1 := by
    rw [boxGeom_inter, Box.interB]
    norm_num [min_def, max_def]
  have he : boxGeom.isEmpty (Box.mk 5 1 5 1) = true := by
    rw [boxGeom_isEmpty, Box.isEmptyB]
    norm_num
  rw [hi, he]
  simp

/-- Oracle for the counterexample: a long route spanning latitudes 1 to 59
and a shorter one spanning 51 to 59 sharing its destination. -/
def cexOracle (o _d : String) : RouteInfo :=
  if o = "1,1" then ⟨[(1, 1), (59, 2)], 10, 10⟩ else ⟨[(51, 1), (59, 2)], 5, 5⟩

/-- Claim C1, counterexample: at a concrete non-degenerate, non-identical
route pair the reported aIntersecRatio is the planar value 1/6 while the
geodetic (WGS84-modelled) area ratio of the same buffers is 3541/33996, so
the reported number is a planar ratio and not the claimed geodetic one. -/
theorem process_buffer_row_geodetic_cex :
    process_buffer_row boxGeom cexOracle 111111 "1,1" "59,2" "51,1" "59,2" =
      some ⟨10, 10, 5, 5, 1/6, 1⟩ ∧
    (spec_geodetic_ratios boxGeom (boxGeom.buffer [(1, 1), (59, 2)] 111111)
      (boxGeom.buffer [(51, 1), (59, 2)] 111111)).1 = 3541/33996 ∧
    (1 : ℚ)/6 ≠ 3541/33996 := by
  have ho1 : cexOracle "1,1" "59,2" = ⟨[(1, 1), (59, 2)], 10, 10⟩ := by
    rw [cexOracle, if_pos rfl]
  have ho2 : cexOracle "51,1" "59,2" = ⟨[(51, 1), (59, 2)], 5, 5⟩ := by
    rw [cexOracle, if_neg (by decide)]
  have hbA : boxGeom.buffer [((1 : ℚ), (1 : ℚ)), (59, 2)] 111111 = Box.mk 0 3 0 60 := by
    rw [boxGeom_buffer, Box.ofRoute]
    norm_num [min_def, max_def]
  have hbB : boxGeom.buffer [((51 : ℚ), (1 : ℚ)), (59, 2)] 111111 = Box.mk 0 3 50 60 := by
    rw [boxGeom_buffer, Box.ofRoute]
    norm_num [min_def, max_def]
  have hi : boxGeom.inter (Box.mk 0 3 0 60) (Box.mk 0 3 50 60) = Box.mk 0 3 50 60 := by
    rw [boxGeom_inter, Box.interB]
    norm_num [min_def, max_def]
  have he : boxGeom.isEmpty (Box.mk 0 3 50 60) = false := by
    rw [boxGeom_isEmpty, Box.isEmptyB]
    norm_num
  have haI : boxGeom.area (Box.mk 0 3 50 60) = 30 := by
    rw [boxGeom_area, Box.areaB, Box.isEmptyB]
    norm_num
  have haA : boxGeom.area (Box.mk 0 3 0 60) = 180 := by
    rw [boxGeom_area, Box.areaB, Box.isEmptyB]
    norm_num
  refine ⟨?_, ?_, by norm_num⟩
  · rw [process_buffer_row]
    rw [if_neg (by decide), if_neg (by decide), if_neg (by decide), if_neg (by decide)]
    dsimp only
    rw [ho1, ho2]
    dsimp only
    rw [create_buffered_route, create_buffered_route,
      if_neg (by norm_num), if_neg (by norm_num)]
    rw [hbA, hbB]
    dsimp only
    rw [hi, he]
    simp only [Bool.false_eq_true, if_false]
    rw [haI, haA]
    simp only [Option.some_inj, BufferRowResult.mk.injEq]
    norm_num
  · rw [spec_geodetic_ratios]
    dsimp only
    rw [hbA, hbB, hi, boxGeom_geodeticArea, boxGeom_geodeticArea,
      Box.geodeticAreaB, Box.geodeticAreaB, Box.isEmptyB, Box.isEmptyB]
    norm_num

/-- Claim C6, amended: the segment percentage lies in the interval from 0 to
100 provided the segment value is between 0 and the total; an oracle-returned
segment value exceeding the total produces a percentage above 100 (see the
counterexample).  The rectangle overlap ratio always lies in 0..100, and the
reported buffer area ratios lie in 0..1 whenever the buffer areas are
positive, with 0 meaning an empty intersection rather than an error. -/
theorem computed_ratio_bounds (K : GeomKernel) (pa pb : K.Poly) (s t : ℚ) :
    (0 ≤ s → s ≤ t → 0 ≤ compute_percentages s t ∧ compute_percentages s t ≤ 100) ∧
    (0 ≤ calculate_overlap_ratio K pa pb ∧ calculate_overlap_ratio K pa pb ≤ 100) ∧
    (0 < K.area pa → 0 < K.area pb →
      0 ≤ (buffer_intersection_ratios K pa pb).1 ∧
      (buffer_intersection_ratios K pa pb).1 ≤ 1 ∧
      0 ≤ (buffer_intersection_ratios K pa pb).2 ∧
      (buffer_intersection_ratios K pa pb).2 ≤ 1) := by
  refine ⟨?_, ⟨calculate_overlap_ratio_nonneg K pa pb, calculate_overlap_ratio_le_100 K pa pb⟩, ?_⟩
  · intro hs hst
    rw [compute_percentages]
    split
    · rename_i ht
      constructor
      · positivity
      · have : s / t ≤ 1 := (div_le_one ht).2 hst
        nlinarith
    · exact ⟨le_refl 0, by norm_num⟩
  · intro hpa hpb
    rw [buffer_intersection_ratios]
    split
    · exact ⟨le_refl 0, by norm_num, le_refl 0, by norm_num⟩
    · have hI0 : 0 ≤ K.area (K.inter pa pb) := K.area_nonneg _
      have hIa : K.area (K.inter pa pb) ≤ K.area pa := K.inter_area_le_left pa pb
      have hIb : K.area (K.inter pa pb) ≤ K.area pb := K.inter_area_le_right pa pb
      exact ⟨div_nonneg hI0 (le_of_lt hpa), (div_le_one hpa).2 hIa,
             div_nonneg hI0 (le_of_lt hpb), (div_le_one hpb).2 hIb⟩

/-- Claim C6, counterexample: compute_percentages applies no clamping, so an
oracle-returned segment value exceeding the route total produces a percentage
above 100 — compute_percentages 2 1 = 200 — refuting that every computed
percentage lies in 0..100 for all inputs. -/
theorem compute_percentages_cex :
    compute_percentages 2 1 = 200 ∧ ¬(compute_percentages 2 1 ≤ 100) := by
  constructor
  · rw [compute_percentages]
    norm_num
  · rw [compute_percentages]
    norm_num

/-! Route oracle. -/

/-- One route of a Google Directions response, with the overview polyline
already decoded to points (polyline.decode is an external library), the leg
distance in meters and the leg duration in seconds. -/
structure DirectionsLeg where
  points : List Coord
  distance_value : ℚ
  duration_value : ℚ

/-- A parsed Directions API response: a status string and the routes list. -/
structure DirectionsData where
  status : String
  routes : List DirectionsLeg

/-- Embedding of get_route_data (canterburycommuto/CanterburyCommuto.py,
lines 99-131; the example variant at lines 335-372 is identical apart from
the response cache).  The network fetch is external, so the embedding takes
the parsed response directly.  On an OK status the first route is read —
Python would raise IndexError on an empty routes list, modelled by error —
and distance and duration are rescaled; on any other status the function
returns an empty polyline with zero distance and time, without raising. -/
def get_route_data (directions_data : DirectionsData) :
    Except String (List Coord × ℚ × ℚ) :=
  if directions_data.status = "OK" then
    match directions_data.routes with
    | [] => .error "IndexError: list index out of range"
    | route :: _ =>
        .ok (route.points, route.distance_value / 1000, route.duration_value / 60)
  else .ok ([], 0, 0)

/-- Claim C7: whenever the upstream routing service reports a non-OK status,
get_route_data returns an empty polyline together with zero distance and
zero duration and raises nothing. -/
theorem get_route_data_non_ok (d : DirectionsData) (h : d.status ≠ "OK") :
    get_route_data d = .ok ([], 0, 0) := by
  rw [get_route_data, if_neg h]

/-- Claim C7, witness: a concrete ZERO_RESULTS response degrades to the
empty route with zero metrics. -/
theorem get_route_data_non_ok_witness :
    get_route_data ⟨"ZERO_RESULTS", []⟩ = .ok ([], 0, 0) :=
  get_route_data_non_ok ⟨"ZERO_RESULTS", []⟩ (by decide)

/-! Boundary refinement. -/

/-- Travel metrics of a route split at refinement boundaries, the dictionary
returned by calculate_precise_travel_segments. -/
structure TravelSegments where
  before_distance : ℚ
  before_time : ℚ
  during_distance : ℚ
  during_time : ℚ
  after_distance : ℚ
  after_time : ℚ
deriving DecidableEq

/-- The all-zero segment dictionary the refinement reports when it cannot
locate boundaries. -/
def zero_segments : TravelSegments := ⟨0, 0, 0, 0, 0, 0⟩

/-- Formatting of a coordinate as the "lat,lon" string passed to the route
oracle. -/
def fmt (c : Coord) : String := toString c.1 ++ "," ++ toString c.2

/-- Embedding of calculate_precise_travel_segments (example sources, lines
1938-2017): with fewer than two intersection points the during segment is
skipped — one point still queries before and after, zero points yields all
zeros — and with two or more points three oracle calls produce the before,
during and after metrics; none models the IndexError on an empty route. -/
def calculate_precise_travel_segments (oracle : String → String → RouteInfo)
    (route_coords : List Coord) (intersections : List Coord) :
    Option TravelSegments :=
  if intersections.length < 2 then
    match intersections with
    | [p] =>
        match route_coords.head?, route_coords.getLast? with
        | some o, some dst =>
            let before_data := oracle (fmt o) (fmt p)
            let after_data := oracle (fmt p) (fmt dst)
            some ⟨before_data.dist, before_data.time, 0, 0,
                  after_data.dist, after_data.time⟩
        | _, _ => none
    | _ => some zero_segments
  else
    match route_coords.head?, route_coords.getLast?,
          intersections.head?, intersections.getLast? with
    | some o, some dst, some s, some e =>
        let before_data := oracle (fmt o) (fmt s)
        let during_data := oracle (fmt s) (fmt e)
        let after_data := oracle (fmt e) (fmt dst)
        some ⟨before_data.dist, before_data.time,
              during_data.dist, during_data.time,
              after_data.dist, after_data.time⟩
    | _, _, _, _ => none

/-- Embedding of the closest-node refinement of process_row_closest_nodes
(example sources, lines 2208-2238): no intersection polygon reports zeros;
otherwise the route vertices inside the polygon are collected in traversal
order and, with at least two of them, the first and last become the entry
and exit passed to calculate_precise_travel_segments; with fewer the zeros
dictionary is reported. -/
def closest_nodes_segments (K : GeomKernel) (oracle : String → String → RouteInfo)
    (coords : List Coord) (intersection_polygon : Option K.Poly) :
    Option TravelSegments :=
  match intersection_polygon with
  | none => some zero_segments
  | some poly =>
      let nodes_inside := coords.filter (fun pt => K.within pt poly)
      if 2 ≤ nodes_inside.length then
        match nodes_inside.head?, nodes_inside.getLast? with
        | some entry, some exit_node =>
            calculate_precise_travel_segments oracle coords [entry, exit_node]
        | _, _ => none
      else some zero_segments

/-- Embedding of the exact-intersection refinement of
process_row_exact_intersections (example sources, lines 2893-2911), the same
dispatch with the polyline/polygon-boundary crossing points in place of the
inside vertices. -/
def exact_intersections_segments (K : GeomKernel) (oracle : String → String → RouteInfo)
    (coords : List Coord) (intersection_polygon : Option K.Poly) :
    Option TravelSegments :=
  match intersection_polygon with
  | none => some zero_segments
  | some poly =>
      let points := K.crossings coords poly
      if 2 ≤ points.length then
        match points.head?, points.getLast? with
        | some entry, some exit_node =>
            calculate_precise_travel_segments oracle coords [entry, exit_node]
        | _, _ => none
      else some zero_segments

/-- Claim C5: whenever either refinement strategy finds fewer than two
qualifying points — vertices inside the intersection polygon for the
closest-node strategy, boundary crossings for the exact strategy, or no
intersection polygon at all — the route's overlap metrics are reported as
the all-zero dictionary (during, before and after all 0), not as an unknown
or error value. -/
theorem refinement_fewer_than_two_zero (K : GeomKernel)
    (oracle : String → String → RouteInfo) (coords : List Coord) (poly : K.Poly) :
    ((coords.filter (fun pt => K.within pt poly)).length < 2 →
      closest_nodes_segments K oracle coords (some poly) = some zero_segments) ∧
    ((K.crossings coords poly).length < 2 →
      exact_intersections_segments K oracle coords (some poly) = some zero_segments) ∧
    closest_nodes_segments K oracle coords none = some zero_segments ∧
    exact_intersections_segments K oracle coords none = some zero_segments ∧
    zero_segments.during_distance = 0 ∧ zero_segments.during_time = 0 ∧
    zero_segments.before_distance = 0 ∧ zero_segments.before_time = 0 ∧
    zero_segments.after_distance = 0 ∧ zero_segments.after_time = 0 := by
  refine ⟨?_, ?_, rfl, rfl, rfl, rfl, rfl, rfl, rfl, rfl⟩
  · intro h
    rw [closest_nodes_segments]
    rw [if_neg (by omega)]
  · intro h
    rw [exact_intersections_segments]
    rw [if_neg (by omega)]

/-! Global response cache. -/

/-- The module-global api_response_cache of the example sources (line 97), a
dictionary keyed by (origin, destination), modelled as an association list
threaded explicitly. -/
abbrev ApiCache := List ((String × String) × DirectionsData)

/-- Embedding of the example get_route_data (example sources, lines
335-372) with the global cache made explicit: when save_api_info is set the
raw response is stored under the (origin, destination) key before the status
check, and the returned route data is that of get_route_data. -/
def get_route_data_cached (origin destination : String)
    (directions_data : DirectionsData) (save_api_info : Bool) (cache : ApiCache) :
    Except String (List Coord × ℚ × ℚ) × ApiCache :=
  let cache1 :=
    if save_api_info then ((origin, destination), directions_data) :: cache else cache
  (get_route_data directions_data, cache1)

/-- A concrete OK response used in the cache counterexample. -/
def respOK : DirectionsData := ⟨"OK", [⟨[(0, 0), (1, 1)], 1000, 60⟩]⟩

/-- Claim C9, amended: the per-row route fetch is deterministic in the row
and the oracle response and never reads the global cache — its returned data
is independent of the cache state — but it is not free of effects outside
the row: with save_api_info set it appends the raw response to the
process-wide api_response_cache (and row processing additionally writes a
map file and prints, I/O outside this embedding). -/
theorem get_route_data_cached_frame (o d : String) (resp : DirectionsData)
    (s : Bool) (c c' : ApiCache) :
    (get_route_data_cached o d resp s c).1 = (get_route_data_cached o d resp s c').1 ∧
    (get_route_data_cached o d resp s c).1 = get_route_data resp ∧
    (get_route_data_cached o d resp s c).2 =
      (if s then ((o, d), resp) :: c else c) :=
  ⟨rfl, rfl, rfl⟩

/-- Claim C9, counterexample: fetching route data for one row with
save_api_info set mutates the process-global response cache — the cache goes
from empty to holding the raw response — so the per-row computation is not
side-effect-free outside its oracle calls. -/
theorem get_route_data_cached_cex :
    (get_route_data_cached "0,0" "1,1" respOK true []).2 =
      [(("0,0", "1,1"), respOK)] ∧
    [(("0,0", "1,1"), respOK)] ≠ ([] : ApiCache) :=
  ⟨rfl, by simp⟩

/-! Per-row error policy. -/

/-- One input row as handed to the row processors, after the reader has
mapped the CSV columns to standardized names. -/
structure CsvRow where
  ID : String
  OriginA : String
  DestinationA : String
  OriginB : String
  DestinationB : String

/-- The numeric fields of IntersectionRatioResult with Optional values; None
models the null fields of the error record. -/
structure IntersectionRatioRecord where
  aDist : Option ℚ
  aTime : Option ℚ
  bDist : Option ℚ
  bTime : Option ℚ
  aIntersecRatio : Option ℚ
  bIntersecRatio : Option ℚ
deriving DecidableEq

/-- The record the except handler builds: every numeric field null. -/
def null_record : IntersectionRatioRecord := ⟨none, none, none, none, none, none⟩

/-- Parsing of a "lat,lon" endpoint string as in the row processors:
s.split(",") must give exactly two parts and both must convert; the float
builtin is external and passed in as parseFloat.  An error models the
ValueError Python raises. -/
def parse_coord_pair (parseFloat : String → Option ℚ) (s : String) :
    Except String (ℚ × ℚ) :=
  match s.splitOn "," with
  | [a, b] =>
      match parseFloat a.trim, parseFloat b.trim with
      | some la, some lb => .ok (la, lb)
      | _, _ => .error "ValueError: could not convert string to float"
  | _ => .error "ValueError: not enough values to unpack"

/-- Embedding of the try body of process_row_route_buffers (example sources,
lines 1649-1822): endpoint parsing, the three degenerate cases, the
identical-pair shortcut, buffering, and the planar ratio computation.  The
result carries the api_calls count; an error carries the message and the
calls made before it was raised.  Plotting and logging are I/O and omitted. -/
def process_row_route_buffers_body (K : GeomKernel)
    (parseFloat : String → Option ℚ) (oracle : String → String → RouteInfo)
    (buffer_distance : ℚ) (row : CsvRow) :
    Except (String × ℕ) (IntersectionRatioRecord × ℕ) :=
  match parse_coord_pair parseFloat row.OriginA with
  | .error e => .error (e, 0)
  | .ok _ =>
    match parse_coord_pair parseFloat row.DestinationA with
    | .error e => .error (e, 0)
    | .ok _ =>
      match parse_coord_pair parseFloat row.OriginB with
      | .error e => .error (e, 0)
      | .ok _ =>
        match parse_coord_pair parseFloat row.DestinationB with
        | .error e => .error (e, 0)
        | .ok _ =>
          if row.OriginA = row.DestinationA ∧ row.OriginB = row.DestinationB then
            .ok (⟨some 0, some 0, some 0, some 0, some 0, some 0⟩, 0)
          else if row.OriginA = row.DestinationA ∧ row.OriginB ≠ row.DestinationB then
            let rb := oracle row.OriginB row.DestinationB
            .ok (⟨some 0, some 0, some rb.dist, some rb.time, some 0, some 0⟩, 1)
          else if row.OriginA ≠ row.DestinationA ∧ row.OriginB = row.DestinationB then
            let ra := oracle row.OriginA row.DestinationA
            .ok (⟨some ra.dist, some ra.time, some 0, some 0, some 0, some 0⟩, 1)
          else
            let ra := oracle row.OriginA row.DestinationA
            let rb := oracle row.OriginB row.DestinationB
            if row.OriginA = row.OriginB ∧ row.DestinationA = row.DestinationB then
              match create_buffered_route K ra.points buffer_distance with
              | none => .error ("ValueError: fewer than two route points", 2)
              | some _ =>
                  .ok (⟨some ra.dist, some ra.time, some ra.dist, some ra.time,
                        some 1, some 1⟩, 2)
            else
              match create_buffered_route K ra.points buffer_distance,
                    create_buffered_route K rb.points buffer_distance with
              | some buffer_a, some buffer_b =>
                  let intersection := K.inter buffer_a buffer_b
                  if K.isEmpty intersection then
                    .ok (⟨some ra.dist, some ra.time, some rb.dist, some rb.time,
                          some 0, some 0⟩, 2)
                  else if K.area buffer_a = 0 then
                    .error ("ZeroDivisionError: float division by zero", 2)
                  else if K.area buffer_b = 0 then
                    .error ("ZeroDivisionError: float division by zero", 2)
                  else
                    .ok (⟨some ra.dist, some ra.time, some rb.dist, some rb.time,
                          some (K.area intersection / K.area buffer_a),
                          some (K.area intersection / K.area buffer_b)⟩, 2)
              | _, _ => .error ("ValueError: fewer than two route points", 2)

/-- Embedding of process_row_route_buffers with its except handler (example
sources, lines 1824-1856): on success the record is returned with an error
flag of 0; on an error, skip_invalid converts it into the null record with
the error counter at 1, and fail-fast re-raises it. -/
def process_row_route_buffers (K : GeomKernel)
    (parseFloat : String → Option ℚ) (oracle : String → String → RouteInfo)
    (buffer_distance : ℚ) (row : CsvRow) (skip_invalid : Bool) :
    Except String (IntersectionRatioRecord × ℕ × ℕ) :=
  match process_row_route_buffers_body K parseFloat oracle buffer_distance row with
  | .ok (rec, calls) => .ok (rec, calls, 0)
  | .error (e, calls) =>
      if skip_invalid then .ok (null_record, calls, 1) else .error e

/-- Whether the body of a row's processing raises. -/
def row_fails (K : GeomKernel) (parseFloat : String → Option ℚ)
    (oracle : String → String → RouteInfo) (buffer_distance : ℚ)
    (row : CsvRow) : Bool :=
  match process_row_route_buffers_body K parseFloat oracle buffer_distance row with
  | .error _ => true
  | .ok _ => false

/-- Embedding of process_rows (example sources, lines 398-439): every row is
handed to the row processor and the records and counters are aggregated; the
thread pool preserves input order and propagates the first uncaught
exception, so it is modelled sequentially. -/
def process_rows (K : GeomKernel) (parseFloat : String → Option ℚ)
    (oracle : String → String → RouteInfo) (buffer_distance : ℚ)
    (rows : List CsvRow) (skip_invalid : Bool) :
    Except String (List IntersectionRatioRecord × ℕ × ℕ) :=
  match rows with
  | [] => .ok ([], 0, 0)
  | row :: rest =>
      match process_row_route_buffers K parseFloat oracle buffer_distance row skip_invalid with
      | .error e => .error e
      | .ok (rec, calls, errs) =>
          match process_rows K parseFloat oracle buffer_distance rest skip_invalid with
          | .error e => .error e
          | .ok (recs, total_calls, total_errs) =>
              .ok (rec :: recs, calls + total_calls, errs + total_errs)

/-- Claim C8: every per-row error is caught at the row-processing boundary:
under skip-and-log the failing row yields the null record with the error
counter incremented by 1 and the batch completes with one record per input
row, the error total counting exactly the failing rows; under fail-fast the
first error propagates to the caller and aborts the batch. -/
theorem process_row_error_policy (K : GeomKernel)
    (parseFloat : String → Option ℚ) (oracle : String → String → RouteInfo)
    (bd : ℚ) :
    (∀ row e calls,
      process_row_route_buffers_body K parseFloat oracle bd row = .error (e, calls) →
      process_row_route_buffers K parseFloat oracle bd row true =
        .ok (null_record, calls, 1) ∧
      process_row_route_buffers K parseFloat oracle bd row false = .error e) ∧
    (∀ rows, ∃ recs calls,
      process_rows K parseFloat oracle bd rows true =
        .ok (recs, calls, (rows.filter (fun r => row_fails K parseFloat oracle bd r)).length) ∧
      recs.length = rows.length) ∧
    (∀ pre row rest e calls,
      (∀ r ∈ pre, row_fails K parseFloat oracle bd r = false) →
      process_row_route_buffers_body K parseFloat oracle bd row = .error (e, calls) →
      process_rows K parseFloat oracle bd (pre ++ row :: rest) false = .error e) := by
  refine ⟨?_, ?_, ?_⟩
  · intro row e calls h
    rw [process_row_route_buffers, h]
    rw [process_row_route_buffers, h]
    exact ⟨rfl, rfl⟩
  · intro rows
    induction rows with
    | nil => exact ⟨[], 0, rfl, rfl⟩
    | cons row rest ih =>
      obtain ⟨recs, calls, hrec, hlen⟩ := ih
      cases hbody : process_row_route_buffers_body K parseFloat oracle bd row with
      | ok v =>
        refine ⟨v.1 :: recs, v.2 + calls, ?_, by simp [hlen]⟩
        rw [process_rows, process_row_route_buffers, hbody, hrec]
        have hf : row_fails K parseFloat oracle bd row = false := by
          rw [row_fails, hbody]
        simp [hf]
      | error ec =>
        refine ⟨null_record :: recs, ec.2 + calls, ?_, by simp [hlen]⟩
        rw [process_rows, process_row_route_buffers, hbody]
        have hf : row_fails K parseFloat oracle bd row = true := by
          rw [row_fails, hbody]
        simp only [if_pos rfl, hrec]
        simp [hf, Nat.add_comm]
  · intro pre row rest e calls hok hbad
    induction pre with
    | nil =>
      rw [List.nil_append, process_rows, process_row_route_buffers, hbad]
      rfl
    | cons r pre ih =>
      have hr : row_fails K parseFloat oracle bd r = false := hok r (by simp)
      rw [row_fails] at hr
      cases hbody : process_row_route_buffers_body K parseFloat oracle bd r with
      | error ec => rw [hbody] at hr; simp at hr
      | ok v =>
        rw [List.cons_append, process_rows, process_row_route_buffers, hbody]
        rw [ih (fun x hx => hok x (by simp [hx]))]

end CanterburyCommuto
